import Mathlib

/-!
Verification of the utility module of the loader app
(python/tk_multi_loader/utils.py).

The module holds four pieces of pure-enough logic that we embed here:

* `filter_publishes` — filtering a list of publish dictionaries through a
  user hook, with a catch-all exception handler;
* `resolve_filters` — recursive substitution of context tokens inside
  query filters;
* `sequence_range_from_path` — pattern-based frame-range detection
  (regex over the filename stem plus a glob over sibling files);
* `find_sequence_range` — template-based frame-range detection with
  fallback to the pattern-based detector.

Python values flowing through the hook-filtering and filter-resolution
code are modelled by the inductive type `PyVal`; dictionaries are
association lists with string keys, which covers every dictionary the
code reads.  The filesystem seen by the glob step is an explicit list of
paths, and the toolkit template system is a structure of abstract
operations, both passed in as parameters.  Exceptions are modelled with
`Except`: the sequence resolver returns an explicit `SeqResult.error`
where the source raises, and the hook is a function into `Except`.
-/

/-- A Python value, as far as this module inspects one. -/
inductive PyVal where
  | none
  | bool (b : Bool)
  | int (n : Int)
  | str (s : String)
  | list (xs : List PyVal)
  | dict (kvs : List (String × PyVal))

/-- Python truthiness for the values above: empty containers, zero, the
empty string, `False` and `None` are falsy. -/
def truthy : PyVal → Bool
  | PyVal.none => false
  | PyVal.bool b => b
  | PyVal.int n => decide (n ≠ 0)
  | PyVal.str s => decide (s ≠ "")
  | PyVal.list xs => !xs.isEmpty
  | PyVal.dict kvs => !kvs.isEmpty

/-- Python `d.get(k)`: the value stored under `k`, or `None` when the key
is absent. -/
def pyDictGet (kvs : List (String × PyVal)) (k : String) : PyVal :=
  match kvs.lookup k with
  | Option.some v => v
  | Option.none => PyVal.none

/-- The splitting loop of `filter_publishes` (utils.py lines 276-279):
for each hook-returned item take `item.get("sg_publish")` and keep it
when truthy.  A non-dictionary item has no `get` attribute, so the loop
raises there; the error value models that exception. -/
def split_hook_items : List PyVal → Except Unit (List PyVal)
  | [] => Except.ok []
  | item :: rest =>
    match item with
    | PyVal.dict kvs =>
      (match split_hook_items rest with
       | Except.error e => Except.error e
       | Except.ok out =>
         Except.ok
           (if truthy (pyDictGet kvs "sg_publish") then
              pyDictGet kvs "sg_publish" :: out
            else out))
    | _ => Except.error ()

/-- `filter_publishes` (utils.py lines 248-285).  The hook call
`app.execute_hook("filter_publishes_hook", publishes=...)` is the
parameter `hook`; it may raise (the `Except.error` case).  The logging
calls have no observable effect on the result and are dropped.  The
whole body sits in a `try` whose handler returns the empty list. -/
def filter_publishes (hook : List PyVal → Except Unit PyVal)
    (sg_data_list : List PyVal) : List PyVal :=
  match hook (sg_data_list.map (fun d => PyVal.dict [("sg_publish", d)])) with
  | Except.error _ => []
  | Except.ok v =>
    match v with
    | PyVal.list items =>
      (match split_hook_items items with
       | Except.error _ => []
       | Except.ok out => out)
    | _ => []

/-- Modelled from the claim text, for comparison with `filter_publishes`:
the publish values of the hook-returned items for which the value is
present and truthy, in hook-output order, skipping items that carry no
such value. -/
def claimed_filter (items : List PyVal) : List PyVal :=
  items.filterMap (fun item =>
    match item with
    | PyVal.dict kvs =>
      if truthy (pyDictGet kvs "sg_publish") then
        Option.some (pyDictGet kvs "sg_publish")
      else Option.none
    | _ => Option.none)

/-- The application context consumed by `resolve_filters`.  Each of the
five context attributes is either `None` or an entity dictionary, which
is what the toolkit guarantees for them. -/
structure AppContext where
  entity : Option (List (String × PyVal))
  step : Option (List (String × PyVal))
  project : Option (List (String × PyVal))
  task : Option (List (String × PyVal))
  user : Option (List (String × PyVal))

/-- Injection of a context attribute into a Python value. -/
def entityToPy : Option (List (String × PyVal)) → PyVal
  | Option.none => PyVal.none
  | Option.some kvs => PyVal.dict kvs

def tokEntity : String := "\x7bcontext.entity\x7d"
def tokStep : String := "\x7bcontext.step\x7d"
def tokProject : String := "\x7bcontext.project\x7d"
def tokProjectId : String := "\x7bcontext.project.id\x7d"
def tokTask : String := "\x7bcontext.task\x7d"
def tokUser : String := "\x7bcontext.user\x7d"

/-- One pass of the `for field in filter` body of `resolve_filters`
(utils.py lines 310-325): the six recognized token strings are replaced
from the context, every other field is kept as is.  A non-string field
compares unequal to every token in Python, hence the match on `str`. -/
def resolveField (ctx : AppContext) (field : PyVal) : PyVal :=
  match field with
  | PyVal.str s =>
    if s = tokEntity then entityToPy ctx.entity
    else if s = tokStep then entityToPy ctx.step
    else if s = tokProject then entityToPy ctx.project
    else if s = tokProjectId then
      (match ctx.project with
       | Option.some kvs =>
         if kvs.isEmpty then PyVal.none else pyDictGet kvs "id"
       | Option.none => PyVal.none)
    else if s = tokTask then entityToPy ctx.task
    else if s = tokUser then entityToPy ctx.user
    else field
  | _ => field

/-- Whether a field is one of the six recognized context-token strings. -/
def isContextToken (field : PyVal) : Bool :=
  match field with
  | PyVal.str s =>
    (s == tokEntity) || (s == tokStep) || (s == tokProject) ||
      (s == tokProjectId) || (s == tokTask) || (s == tokUser)
  | _ => false

/-- A filter as consumed by `resolve_filters`: the code distinguishes
dictionary filters (`type(filter) is dict`, read through their
`filter_operator` and `filters` keys) from plain filters, which it
iterates as a list of fields. -/
inductive SgFilter where
  | complex (op : PyVal) (subs : List SgFilter)
  | simple (fields : List PyVal)

/-- `resolve_filters` (utils.py lines 288-327): dictionary filters are
rebuilt with the operator kept and the sub-filters resolved recursively,
plain filters have each field passed through the token substitution. -/
def resolve_filters (ctx : AppContext) : List SgFilter → List SgFilter
  | [] => []
  | SgFilter.complex op subs :: rest =>
    SgFilter.complex op (resolve_filters ctx subs) :: resolve_filters ctx rest
  | SgFilter.simple fields :: rest =>
    SgFilter.simple (fields.map (resolveField ctx)) :: resolve_filters ctx rest

/-- Index of the last occurrence of `c` in `s` (Python `str.rfind`,
restricted to the found case; the caller handles absence through
`Option`). -/
def rfind (s : List Char) (c : Char) : Option Nat :=
  match s with
  | [] => Option.none
  | a :: rest =>
    match rfind rest c with
    | Option.some j => Option.some (j + 1)
    | Option.none => if a = c then Option.some 0 else Option.none

/-- `os.path.splitext` on a posix path: split at the last dot of the
final path component, provided some non-dot character of that component
stands before it (so a leading-dot file such as `.bashrc` keeps its dot
in the root). -/
def splitext (p : List Char) : List Char × List Char :=
  let sepSucc : Nat :=
    match rfind p '/' with
    | Option.none => 0
    | Option.some s => s + 1
  match rfind p '.' with
  | Option.none => (p, [])
  | Option.some d =>
    if sepSucc ≤ d ∧ ((p.take d).drop sepSucc).any (fun ch => !(ch == '.')) then
      (p.take d, p.drop d)
    else (p, [])

/-- A character the frame regex accepts inside a digit-or-hash run. -/
def isFrameChar (c : Char) : Bool := c.isDigit || c == '#'

/-- Modelled `re.search` of the anchored frame regex on a stem.  The
regex matches, at the end of the string, either a nonempty run over
digits and hash marks or a percent-zero-digit-d token; the leftmost such
match is the maximal trailing run when one exists, else the four-char
percent token.  Returns the stem with the token removed together with
the matched token (capture group 1). -/
def frameMatch (root : List Char) : Option (List Char × List Char) :=
  if (root.reverse.takeWhile isFrameChar).isEmpty then
    match root.reverse with
    | d2 :: e :: z :: pc :: rest =>
      if d2 = 'd' ∧ e.isDigit = true ∧ z = '0' ∧ pc = '%' then
        Option.some (rest.reverse, ['%', '0', e, 'd'])
      else Option.none
    | _ => Option.none
  else
    Option.some ((root.reverse.dropWhile isFrameChar).reverse,
      (root.reverse.takeWhile isFrameChar).reverse)

/-- The glob pattern built at utils.py lines 365-368: the frame token of
the stem replaced by a single star wildcard, extension reattached.  The
regex is anchored at the end of the stem so the substitution rewrites
exactly the one trailing match. -/
def glob_pattern (path : List Char) : Option (List Char) :=
  match frameMatch (splitext path).1 with
  | Option.none => Option.none
  | Option.some (stem, _) => Option.some (stem ++ '*' :: (splitext path).2)

/-- Whether file path `f` matches the glob pattern `stem ++ "*" ++ ext`:
`stem` in front, `ext` at the back, and the stretch in between free of
the path separator (a glob star does not cross directories). -/
def globMatch (stem ext f : List Char) : Bool :=
  decide (stem.length + ext.length ≤ f.length) &&
    (f.take stem.length == stem) &&
    (f.drop (f.length - ext.length) == ext) &&
    ((f.drop stem.length).take (f.length - stem.length - ext.length)).all
      (fun c => !(c == '/'))

/-- Base-10 value of a digit string. -/
def digitsToNat (s : List Char) : Nat :=
  s.foldl (fun a c => a * 10 + (c.toNat - '0'.toNat)) 0

/-- Python `int(s)` on a captured frame token.  The token alphabet is
digits, hash marks and the percent token characters, of which exactly
the nonempty all-digit strings parse; everything else raises
`ValueError`, modelled by `Option.none`. -/
def pyInt (s : List Char) : Option Int :=
  if !s.isEmpty && s.all Char.isDigit then Option.some (Int.ofNat (digitsToNat s))
  else Option.none

/-- The comprehension of utils.py line 378: re-apply the frame regex to
each globbed file root and parse capture group 1 as an integer.  A root
that the regex misses raises `AttributeError` (calling `group` on
`None`), a non-numeric token raises `ValueError`; either aborts the
whole comprehension. -/
def extractFrames : List (List Char) → Except String (List Int)
  | [] => Except.ok []
  | r :: rs =>
    match frameMatch r with
    | Option.none => Except.error "AttributeError"
    | Option.some (_, tok) =>
      match pyInt tok with
      | Option.none => Except.error "ValueError"
      | Option.some n =>
        match extractFrames rs with
        | Except.error e => Except.error e
        | Except.ok ns => Except.ok (n :: ns)

/-- Python `min` over a nonempty list given as head and tail. -/
def listMin (x : Int) (xs : List Int) : Int := xs.foldl min x

/-- Python `max` over a nonempty list given as head and tail. -/
def listMax (x : Int) (xs : List Int) : Int := xs.foldl max x

/-- Result of a sequence-range query: `None`, a `(min, max)` pair, or a
raised exception. -/
inductive SeqResult where
  | none
  | range (lo hi : Int)
  | error (msg : String)
deriving DecidableEq

/-- `sequence_range_from_path` (utils.py lines 330-379).  The filesystem
visible to `glob.glob` is the explicit list `fs` of paths; the glob
pattern is the stem left of the frame token, a star, and the extension,
as built by `glob_pattern`.  `min` of the empty list raises
`ValueError`. -/
def sequence_range_from_path (fs : List (List Char)) (path : List Char) :
    SeqResult :=
  match frameMatch (splitext path).1 with
  | Option.none => SeqResult.none
  | Option.some (stem, _) =>
    match extractFrames
        ((fs.filter (globMatch stem (splitext path).2)).map
          (fun f => (splitext f).1)) with
    | Except.error e => SeqResult.error e
    | Except.ok [] => SeqResult.error "ValueError: min of empty sequence"
    | Except.ok (n :: ns) => SeqResult.range (listMin n ns) (listMax n ns)

/-- The toolkit operations `find_sequence_range` consumes, over an
abstract template type `T`: classification of a path (which may raise
`TankError`, the `Except.error` case, or find nothing), field extraction
from a matching path, and enumeration of the paths reachable from a
template and fields with the listed keys left free.  Field values are
the integers the sequence key carries. -/
structure Tk (T : Type) where
  template_from_path : List Char → Except Unit (Option T)
  get_fields : T → List Char → List (String × Int)
  paths_from_template : T → List (String × Int) → List String → List (List Char)

/-- The classification block of `find_sequence_range` (utils.py lines
394-398): `template` starts as `None`, the call result replaces it, and
a `TankError` is swallowed leaving `None`. -/
def classify {T : Type} (tk : Tk T) (path : List Char) : Option T :=
  match tk.template_from_path path with
  | Except.error _ => Option.none
  | Except.ok o => o

/-- The template branch of `find_sequence_range` (utils.py lines
406-426), packaged on its own: enumerate sibling paths with the sequence
and eye keys free, collect each file's sequence field when present, and
return `None` on an empty collection, else the min and max.  Note this
definition never looks at the filesystem list used by globbing. -/
def template_range {T : Type} (tk : Tk T) (t : T) (path : List Char) :
    SeqResult :=
  match (tk.paths_from_template t (tk.get_fields t path) ["SEQ", "eye"]).filterMap
      (fun f => (tk.get_fields t f).lookup "SEQ") with
  | [] => SeqResult.none
  | n :: ns => SeqResult.range (listMin n ns) (listMax n ns)

/-- `find_sequence_range` (utils.py lines 382-426): try the template
system first; fall back to `sequence_range_from_path` when
classification yields no template or the extracted fields lack the
`SEQ` key. -/
def find_sequence_range {T : Type} (tk : Tk T) (fs : List (List Char))
    (path : List Char) : SeqResult :=
  match classify tk path with
  | Option.none => sequence_range_from_path fs path
  | Option.some t =>
    match (tk.get_fields t path).lookup "SEQ" with
    | Option.none => sequence_range_from_path fs path
    | Option.some _ =>
      match (tk.paths_from_template t (tk.get_fields t path) ["SEQ", "eye"]).filterMap
          (fun f => (tk.get_fields t f).lookup "SEQ") with
      | [] => SeqResult.none
      | n :: ns => SeqResult.range (listMin n ns) (listMax n ns)

/-! ### Helper lemmas -/

theorem takeWhile_append_all {α : Type} (p : α → Bool) (l₁ l₂ : List α)
    (h : l₁.all p = true) :
    (l₁ ++ l₂).takeWhile p = l₁ ++ l₂.takeWhile p := by
  induction l₁ with
  | nil => simp
  | cons a l ih =>
    simp only [List.all_cons, Bool.and_eq_true] at h
    simp [List.takeWhile_cons_of_pos h.1, ih h.2]

theorem dropWhile_append_all {α : Type} (p : α → Bool) (l₁ l₂ : List α)
    (h : l₁.all p = true) :
    (l₁ ++ l₂).dropWhile p = l₂.dropWhile p := by
  induction l₁ with
  | nil => simp
  | cons a l ih =>
    simp only [List.all_cons, Bool.and_eq_true] at h
    simp [List.dropWhile_cons_of_pos h.1, ih h.2]

theorem dropWhile_of_takeWhile_nil {α : Type} (p : α → Bool) (l : List α)
    (h : l.takeWhile p = []) : l.dropWhile p = l := by
  cases l with
  | nil => rfl
  | cons a l =>
    by_cases hp : p a = true
    · rw [List.takeWhile_cons_of_pos hp] at h
      exact absurd h (by simp)
    · exact List.dropWhile_cons_of_neg hp

/-- The frame regex on a stem that ends in a nonempty digit-or-hash run:
the match is exactly that run, provided the part in front does not bleed
into it. -/
theorem frameMatch_append_run (p t : List Char) (hne : t ≠ [])
    (ht : t.all isFrameChar = true)
    (hp : p.reverse.takeWhile isFrameChar = []) :
    frameMatch (p ++ t) = Option.some (p, t) := by
  have htr : t.reverse.all isFrameChar = true := by
    simp only [List.all_eq_true] at ht ⊢
    intro x hx
    exact ht x (by simpa using hx)
  have h1 : (p ++ t).reverse.takeWhile isFrameChar = t.reverse := by
    rw [List.reverse_append, takeWhile_append_all _ _ _ htr, hp, List.append_nil]
  have h2 : (p ++ t).reverse.dropWhile isFrameChar = p.reverse := by
    rw [List.reverse_append, dropWhile_append_all _ _ _ htr,
      dropWhile_of_takeWhile_nil _ _ hp]
  have h3 : t.reverse.isEmpty = false := by
    cases t with
    | nil => exact absurd rfl hne
    | cons a l => simp
  unfold frameMatch
  rw [h1, h2, h3]
  simp

/-- The frame regex on a stem that ends in a percent token: the match is
the four-character token. -/
theorem frameMatch_append_pct (p : List Char) (e : Char)
    (he : e.isDigit = true) :
    frameMatch (p ++ ['%', '0', e, 'd']) = Option.some (p, ['%', '0', e, 'd']) := by
  have hrev : (p ++ ['%', '0', e, 'd']).reverse = 'd' :: e :: '0' :: '%' :: p.reverse := by
    simp
  have hd : isFrameChar 'd' = false := by decide
  unfold frameMatch
  rw [hrev, List.takeWhile_cons_of_neg (by simp [hd])]
  simp [he]

theorem listMin_spec (x : Int) (xs : List Int) :
    (listMin x xs = x ∨ listMin x xs ∈ xs) ∧ listMin x xs ≤ x ∧
      ∀ y ∈ xs, listMin x xs ≤ y := by
  induction xs generalizing x with
  | nil => simp [listMin]
  | cons a l ih =>
    have hfold : listMin x (a :: l) = listMin (min x a) l := rfl
    obtain ⟨hmem, hle, hall⟩ := ih (min x a)
    refine ⟨?_, ?_, ?_⟩
    · rw [hfold]
      rcases hmem with h | h
      · rcases min_choice x a with hc | hc
        · exact Or.inl (h.trans hc)
        · exact Or.inr (by rw [h, hc]; exact List.mem_cons_self a l)
      · exact Or.inr (List.mem_cons_of_mem a h)
    · rw [hfold]
      exact le_trans hle (min_le_left x a)
    · intro y hy
      rw [hfold]
      rcases List.mem_cons.1 hy with rfl | hy2
      · exact le_trans hle (min_le_right x y)
      · exact hall y hy2

theorem listMax_spec (x : Int) (xs : List Int) :
    (listMax x xs = x ∨ listMax x xs ∈ xs) ∧ x ≤ listMax x xs ∧
      ∀ y ∈ xs, y ≤ listMax x xs := by
  induction xs generalizing x with
  | nil => simp [listMax]
  | cons a l ih =>
    have hfold : listMax x (a :: l) = listMax (max x a) l := rfl
    obtain ⟨hmem, hle, hall⟩ := ih (max x a)
    refine ⟨?_, ?_, ?_⟩
    · rw [hfold]
      rcases hmem with h | h
      · rcases max_choice x a with hc | hc
        · exact Or.inl (h.trans hc)
        · exact Or.inr (by rw [h, hc]; exact List.mem_cons_self a l)
      · exact Or.inr (List.mem_cons_of_mem a h)
    · rw [hfold]
      exact le_trans (le_max_left x a) hle
    · intro y hy
      rw [hfold]
      rcases List.mem_cons.1 hy with rfl | hy2
      · exact le_trans (le_max_right x y) hle
      · exact hall y hy2

/-- A globbed file root missed by the frame regex aborts the extraction
comprehension with an error, wherever it sits in the list. -/
theorem extractFrames_error_of_bad (l : List (List Char)) (r : List Char)
    (hr : r ∈ l) (hb : frameMatch r = Option.none) :
    ∃ e, extractFrames l = Except.error e := by
  induction l with
  | nil => cases hr
  | cons a l ih =>
    rcases List.mem_cons.1 hr with rfl | hr2
    · exact ⟨"AttributeError", by simp [extractFrames, hb]⟩
    · cases hfa : frameMatch a with
      | none => exact ⟨"AttributeError", by simp [extractFrames, hfa]⟩
      | some st =>
        cases hpi : pyInt st.2 with
        | none =>
          exact ⟨"ValueError", by simp [extractFrames, hfa, hpi]⟩
        | some n =>
          obtain ⟨e, he⟩ := ih hr2
          exact ⟨e, by simp [extractFrames, hfa, hpi, he]⟩

/-! ### Claim theorems -/

/-- The directory of the concrete scenario of C1: three sibling frames
of one sequence. -/
def shotSeqFs : List (List Char) :=
  ["shot_0010.exr".data, "shot_0011.exr".data, "shot_0015.exr".data]

/-- C1: for every path whose stem ends in a run of decimal digits,
`sequence_range_from_path` returns the pair of minimum and maximum of
the integer frame values extracted from the files on disk matching the
derived glob; concretely, on `shot_0011.exr` next to `shot_0010.exr`
and `shot_0015.exr` it returns `(10, 15)`. -/
theorem C1_pattern_resolution_min_max :
    (∀ (fs : List (List Char)) (path stem tok : List Char) (n : Int)
        (ns : List Int),
      frameMatch (splitext path).1 = Option.some (stem, tok) →
      tok.all Char.isDigit = true →
      extractFrames ((fs.filter (globMatch stem (splitext path).2)).map
        (fun f => (splitext f).1)) = Except.ok (n :: ns) →
      sequence_range_from_path fs path =
          SeqResult.range (listMin n ns) (listMax n ns) ∧
        (listMin n ns = n ∨ listMin n ns ∈ ns) ∧
        (listMax n ns = n ∨ listMax n ns ∈ ns) ∧
        (∀ x, (x = n ∨ x ∈ ns) → listMin n ns ≤ x ∧ x ≤ listMax n ns)) ∧
    sequence_range_from_path shotSeqFs "shot_0011.exr".data =
      SeqResult.range 10 15 := by
  constructor
  · intro fs path stem tok n ns h1 _h2 h3
    refine ⟨by simp [sequence_range_from_path, h1, h3], ?_, ?_, ?_⟩
    · exact (listMin_spec n ns).1
    · exact (listMax_spec n ns).1
    · intro x hx
      rcases hx with rfl | hx2
      · exact ⟨(listMin_spec x ns).2.1, (listMax_spec x ns).2.1⟩
      · exact ⟨(listMin_spec n ns).2.2 x hx2, (listMax_spec n ns).2.2 x hx2⟩
  · decide

/-- C1 witness: the general part of C1 applied to the concrete scenario
directory. -/
theorem C1_pattern_resolution_min_max_witness :
    sequence_range_from_path shotSeqFs "shot_0011.exr".data =
        SeqResult.range (listMin 10 [11, 15]) (listMax 10 [11, 15]) ∧
      (listMin 10 [11, 15] = 10 ∨ listMin 10 [11, 15] ∈ [11, 15]) ∧
      (listMax 10 [11, 15] = 10 ∨ listMax 10 [11, 15] ∈ [11, 15]) ∧
      (∀ x, (x = 10 ∨ x ∈ [11, 15]) →
        listMin 10 [11, 15] ≤ x ∧ x ≤ listMax 10 [11, 15]) :=
  C1_pattern_resolution_min_max.1 shotSeqFs "shot_0011.exr".data
    "shot_".data "0011".data 10 [11, 15] (by decide) (by decide) rfl

/-- C4: a path whose stem carries no trailing frame marker resolves to
the absence value, and the answer never consults the filesystem list. -/
theorem C4_no_marker_absent (fs : List (List Char)) (path : List Char)
    (h : frameMatch (splitext path).1 = Option.none) :
    sequence_range_from_path fs path = SeqResult.none := by
  simp [sequence_range_from_path, h]

/-- C4 witness: `notes.txt` resolves to absence whatever is on disk. -/
theorem C4_no_marker_absent_witness :
    sequence_range_from_path ["notes_001.txt".data] "notes.txt".data =
      SeqResult.none :=
  C4_no_marker_absent ["notes_001.txt".data] "notes.txt".data (by decide)

/-- C5: frame numbers are exact base-10 integers with insignificant
leading zeros: `file_007.jpg` and `file_12.jpg` side by side resolve to
the range `(7, 12)` from either starting path. -/
theorem C5_leading_zeros_insignificant :
    sequence_range_from_path ["file_007.jpg".data, "file_12.jpg".data]
        "file_007.jpg".data = SeqResult.range 7 12 ∧
    sequence_range_from_path ["file_007.jpg".data, "file_12.jpg".data]
        "file_12.jpg".data = SeqResult.range 7 12 := by
  constructor <;> decide

/-- C7: a sibling file that matches the glob but whose stem the frame
regex rejects makes `sequence_range_from_path` raise rather than skip
the file. -/
theorem C7_bad_sibling_hard_error (fs : List (List Char))
    (path stem tok f : List Char)
    (h1 : frameMatch (splitext path).1 = Option.some (stem, tok))
    (h2 : f ∈ fs) (h3 : globMatch stem (splitext path).2 f = true)
    (h4 : frameMatch (splitext f).1 = Option.none) :
    ∃ msg, sequence_range_from_path fs path = SeqResult.error msg := by
  have hmem : (splitext f).1 ∈
      (fs.filter (globMatch stem (splitext path).2)).map
        (fun g => (splitext g).1) :=
    List.mem_map_of_mem _ (List.mem_filter.2 ⟨h2, h3⟩)
  obtain ⟨e, he⟩ := extractFrames_error_of_bad _ _ hmem h4
  exact ⟨e, by simp [sequence_range_from_path, h1, he]⟩

/-- C7 witness: `shot_final.exr` matches the glob of `shot_0011.exr`
but has no trailing frame number, so resolution errors out. -/
theorem C7_bad_sibling_hard_error_witness :
    ∃ msg, sequence_range_from_path ["shot_final.exr".data]
      "shot_0011.exr".data = SeqResult.error msg :=
  C7_bad_sibling_hard_error ["shot_final.exr".data] "shot_0011.exr".data
    "shot_".data "0011".data "shot_final.exr".data
    (by decide) (by decide) (by decide) (by decide)

/-- C8: when the stem matches the frame pattern but the glob finds no
file at all, `sequence_range_from_path` raises (minimum of an empty
collection) instead of returning absence or a degenerate range. -/
theorem C8_empty_glob_error (fs : List (List Char)) (path stem tok : List Char)
    (h1 : frameMatch (splitext path).1 = Option.some (stem, tok))
    (h2 : fs.filter (globMatch stem (splitext path).2) = []) :
    ∃ msg, sequence_range_from_path fs path = SeqResult.error msg := by
  exact ⟨"ValueError: min of empty sequence",
    by simp [sequence_range_from_path, h1, h2, extractFrames]⟩

/-- C8 witness: an empty directory and the path `shot_0011.exr`. -/
theorem C8_empty_glob_error_witness :
    ∃ msg, sequence_range_from_path ([] : List (List Char))
      "shot_0011.exr".data = SeqResult.error msg :=
  C8_empty_glob_error [] "shot_0011.exr".data "shot_".data "0011".data
    (by decide) (by decide)

/-- C6 counterexample: with the stem "shot1", whose last character
is a digit, the hash-token path normalizes to the glob `shot*` (the
digit-or-hash run swallows the trailing 1 of the stem) while the
percent-token path keeps the full stem and normalizes to `shot1*`;
with the file `shot5.exr` on disk the two resolve differently, so the
claim fails for arbitrary stems. -/
theorem C6_same_glob_counterexample :
    glob_pattern "shot1%02d.exr".data ≠ glob_pattern "shot1##.exr".data ∧
    glob_pattern "shot1##.exr".data = glob_pattern "shot100.exr".data ∧
    sequence_range_from_path ["shot5.exr".data] "shot1%02d.exr".data ≠
      sequence_range_from_path ["shot5.exr".data] "shot1##.exr".data := by
  refine ⟨by decide, by decide, by decide⟩

/-- C6 (amended): for any stem whose trailing character is neither a
decimal digit nor a hash mark, a percent-token path, a hash-run path
and a concrete-digit path with equal digit count all normalize to the
same glob pattern, and pattern resolution returns the same result on
all three over the same filesystem. -/
theorem C6_same_glob_amended (p ext : List Char) (n : Nat) (ds : List Char)
    (e : Char) (fs : List (List Char)) (pPct pHash pNum : List Char)
    (hp : p.reverse.takeWhile isFrameChar = [])
    (hn : 0 < n) (he : e.isDigit = true) (_hen : e.toNat - '0'.toNat = n)
    (hlen : ds.length = n) (hdig : ds.all Char.isDigit = true)
    (h1 : splitext pPct = (p ++ ['%', '0', e, 'd'], ext))
    (h2 : splitext pHash = (p ++ List.replicate n '#', ext))
    (h3 : splitext pNum = (p ++ ds, ext)) :
    glob_pattern pPct = Option.some (p ++ '*' :: ext) ∧
    glob_pattern pHash = Option.some (p ++ '*' :: ext) ∧
    glob_pattern pNum = Option.some (p ++ '*' :: ext) ∧
    sequence_range_from_path fs pPct = sequence_range_from_path fs pNum ∧
    sequence_range_from_path fs pHash = sequence_range_from_path fs pNum := by
  have f1 : frameMatch (splitext pPct).1 = Option.some (p, ['%', '0', e, 'd']) := by
    rw [h1]
    exact frameMatch_append_pct p e he
  have f2 : frameMatch (splitext pHash).1 =
      Option.some (p, List.replicate n '#') := by
    rw [h2]
    refine frameMatch_append_run p _ ?_ ?_ hp
    · simpa using Nat.pos_iff_ne_zero.1 hn
    · simp only [List.all_eq_true]
      intro x hx
      rw [List.eq_of_mem_replicate hx]
      decide
  have f3 : frameMatch (splitext pNum).1 = Option.some (p, ds) := by
    rw [h3]
    refine frameMatch_append_run p ds ?_ ?_ hp
    · intro hnil
      rw [hnil] at hlen
      exact absurd hlen.symm (Nat.pos_iff_ne_zero.1 hn)
    · simp only [List.all_eq_true] at hdig ⊢
      intro x hx
      simp [isFrameChar, hdig x hx]
  have e1 : (splitext pPct).2 = ext := by rw [h1]
  have e2 : (splitext pHash).2 = ext := by rw [h2]
  have e3 : (splitext pNum).2 = ext := by rw [h3]
  refine ⟨?_, ?_, ?_, ?_, ?_⟩
  · simp [glob_pattern, f1, e1]
  · simp [glob_pattern, f2, e2]
  · simp [glob_pattern, f3, e3]
  · simp [sequence_range_from_path, f1, f3, e1, e3]
  · simp [sequence_range_from_path, f2, f3, e2, e3]

/-- C6 witness: the amended statement instantiated at the stem
`shot_`, extension `.exr`, digit count 4. -/
theorem C6_same_glob_amended_witness :
    glob_pattern "shot_%04d.exr".data =
        Option.some ("shot_".data ++ '*' :: ".exr".data) ∧
    glob_pattern "shot_####.exr".data =
        Option.some ("shot_".data ++ '*' :: ".exr".data) ∧
    glob_pattern "shot_0010.exr".data =
        Option.some ("shot_".data ++ '*' :: ".exr".data) ∧
    sequence_range_from_path ["shot_0010.exr".data] "shot_%04d.exr".data =
      sequence_range_from_path ["shot_0010.exr".data] "shot_0010.exr".data ∧
    sequence_range_from_path ["shot_0010.exr".data] "shot_####.exr".data =
      sequence_range_from_path ["shot_0010.exr".data] "shot_0010.exr".data :=
  C6_same_glob_amended "shot_".data ".exr".data 4 "0010".data '4'
    ["shot_0010.exr".data] "shot_%04d.exr".data "shot_####.exr".data
    "shot_0010.exr".data (by decide) (by decide) (by decide) (by decide)
    (by decide) (by decide) (by decide) (by decide) (by decide)

/-- C2: `find_sequence_range` returns exactly the pattern-based result
precisely when classification yields no template (including a swallowed
`TankError`) or the matched template's fields lack the `SEQ` key; in
every other case the result is `template_range`, a quantity computed
solely from template enumeration with no access to the glob filesystem
list. -/
theorem C2_template_precedence {T : Type} (tk : Tk T)
    (fs : List (List Char)) (path : List Char) :
    (classify tk path = Option.none →
      find_sequence_range tk fs path = sequence_range_from_path fs path) ∧
    (∀ t : T, classify tk path = Option.some t →
      (tk.get_fields t path).lookup "SEQ" = Option.none →
      find_sequence_range tk fs path = sequence_range_from_path fs path) ∧
    (∀ t : T, classify tk path = Option.some t →
      ((tk.get_fields t path).lookup "SEQ").isSome = true →
      find_sequence_range tk fs path = template_range tk t path) := by
  refine ⟨?_, ?_, ?_⟩
  · intro h
    simp [find_sequence_range, h]
  · intro t h1 h2
    simp [find_sequence_range, h1, h2]
  · intro t h1 h2
    obtain ⟨v, hv⟩ := Option.isSome_iff_exists.1 h2
    simp [find_sequence_range, template_range, h1, hv]

/-- A toolkit stub whose only template matches every path, exposes a
`SEQ` field, and enumerates two sibling frames. -/
def tkSeq : Tk Unit where
  template_from_path := fun _ => Except.ok (Option.some ())
  get_fields := fun _ p => if p = "a".data then [("SEQ", 2)] else [("SEQ", 8)]
  paths_from_template := fun _ _ _ => ["b".data, "c".data]

/-- C2 witness: with a matching template exposing `SEQ`, the result is
the template-derived range whatever the glob filesystem holds. -/
theorem C2_template_precedence_witness :
    find_sequence_range tkSeq ["a_0001.exr".data] "a".data =
      template_range tkSeq () "a".data :=
  (C2_template_precedence tkSeq ["a_0001.exr".data] "a".data).2.2 () rfl rfl

/-- C3: when a template matches, its fields include `SEQ`, and the
enumeration step contributes no frame numbers, `find_sequence_range`
returns the absence value instead of retrying pattern resolution. -/
theorem C3_empty_enumeration_absent {T : Type} (tk : Tk T)
    (fs : List (List Char)) (path : List Char) (t : T)
    (h1 : classify tk path = Option.some t)
    (h2 : ((tk.get_fields t path).lookup "SEQ").isSome = true)
    (h3 : (tk.paths_from_template t (tk.get_fields t path)
        ["SEQ", "eye"]).filterMap
        (fun f => (tk.get_fields t f).lookup "SEQ") = []) :
    find_sequence_range tk fs path = SeqResult.none := by
  obtain ⟨v, hv⟩ := Option.isSome_iff_exists.1 h2
  simp [find_sequence_range, h1, hv, h3]

/-- A toolkit stub that matches with a `SEQ` field but enumerates no
sibling paths at all. -/
def tkEmpty : Tk Unit where
  template_from_path := fun _ => Except.ok (Option.some ())
  get_fields := fun _ _ => [("SEQ", 2)]
  paths_from_template := fun _ _ _ => []

/-- C3 witness: empty enumeration after a successful match yields
absence even though the path has a pattern-parseable trailing number
and a matching sibling exists on disk. -/
theorem C3_empty_enumeration_absent_witness :
    find_sequence_range tkEmpty ["shot_0010.exr".data]
      "shot_0011.exr".data = SeqResult.none :=
  C3_empty_enumeration_absent tkEmpty ["shot_0010.exr".data]
    "shot_0011.exr".data () rfl rfl rfl

/-- The splitting loop succeeds on a list of dictionaries and produces
exactly the claimed selection. -/
theorem split_hook_items_ok (items : List PyVal)
    (h : ∀ it ∈ items, ∃ kvs, it = PyVal.dict kvs) :
    split_hook_items items = Except.ok (claimed_filter items) := by
  induction items with
  | nil => rfl
  | cons a l ih =>
    obtain ⟨kvs, rfl⟩ := h a (List.mem_cons_self a l)
    have hrec := ih (fun it hit => h it (List.mem_cons_of_mem _ hit))
    by_cases ht : truthy (pyDictGet kvs "sg_publish") = true
    · simp [split_hook_items, hrec, claimed_filter, List.filterMap_cons, ht]
    · simp only [Bool.not_eq_true] at ht
      simp [split_hook_items, hrec, claimed_filter, List.filterMap_cons, ht]

/-- The splitting loop raises as soon as the hook output contains any
non-dictionary item. -/
theorem split_hook_items_error (items : List PyVal)
    (h : ∃ it ∈ items, ∀ kvs, it ≠ PyVal.dict kvs) :
    ∃ e, split_hook_items items = Except.error e := by
  induction items with
  | nil => simp at h
  | cons a l ih =>
    obtain ⟨it, hit, hne⟩ := h
    rcases List.mem_cons.1 hit with rfl | h2
    · cases it with
      | dict kvs => exact absurd rfl (hne kvs)
      | none => exact ⟨(), rfl⟩
      | bool b => exact ⟨(), rfl⟩
      | int n => exact ⟨(), rfl⟩
      | str s => exact ⟨(), rfl⟩
      | list xs => exact ⟨(), rfl⟩
    · cases a with
      | dict kvs =>
        obtain ⟨e, he⟩ := ih ⟨it, h2, hne⟩
        exact ⟨e, by simp [split_hook_items, he]⟩
      | none => exact ⟨(), rfl⟩
      | bool b => exact ⟨(), rfl⟩
      | int n => exact ⟨(), rfl⟩
      | str s => exact ⟨(), rfl⟩
      | list xs => exact ⟨(), rfl⟩

/-- A hook whose output list mixes a well-formed publish wrapper with a
bare integer. -/
def hookMixed : List PyVal → Except Unit PyVal :=
  fun _ => Except.ok (PyVal.list
    [PyVal.dict [("sg_publish", PyVal.int 1)], PyVal.int 7])

/-- C9 counterexample: the hook returns a list, so by the claim the
result should be the publish values of the items carrying one — here
`[1]` — but the source hits an attribute error on the bare integer,
lands in the catch-all handler, and returns the empty list. -/
theorem C9_counterexample :
    hookMixed [] = Except.ok (PyVal.list
      [PyVal.dict [("sg_publish", PyVal.int 1)], PyVal.int 7]) ∧
    filter_publishes hookMixed [] = [] ∧
    claimed_filter [PyVal.dict [("sg_publish", PyVal.int 1)], PyVal.int 7] =
      [PyVal.int 1] ∧
    filter_publishes hookMixed [] ≠
      claimed_filter [PyVal.dict [("sg_publish", PyVal.int 1)], PyVal.int 7] := by
  refine ⟨rfl, rfl, rfl, ?_⟩
  intro h
  have hlen := congrArg List.length h
  exact absurd hlen (by decide)

/-- C9 (amended): `filter_publishes` never propagates an exception; it
returns the empty list when the hook raises, returns a non-list, or
returns a list containing any non-dictionary item, and otherwise
returns, in hook-output order, exactly the publish values present and
truthy in the hook-returned dictionaries. -/
theorem C9_filter_publishes_amended (hook : List PyVal → Except Unit PyVal)
    (l : List PyVal) :
    (∀ e, hook (l.map (fun d => PyVal.dict [("sg_publish", d)])) =
        Except.error e → filter_publishes hook l = []) ∧
    (∀ v, hook (l.map (fun d => PyVal.dict [("sg_publish", d)])) =
        Except.ok v → (∀ items, v ≠ PyVal.list items) →
      filter_publishes hook l = []) ∧
    (∀ items, hook (l.map (fun d => PyVal.dict [("sg_publish", d)])) =
        Except.ok (PyVal.list items) →
      ((∃ it ∈ items, ∀ kvs, it ≠ PyVal.dict kvs) →
        filter_publishes hook l = []) ∧
      ((∀ it ∈ items, ∃ kvs, it = PyVal.dict kvs) →
        filter_publishes hook l = claimed_filter items)) := by
  refine ⟨?_, ?_, ?_⟩
  · intro e h
    simp [filter_publishes, h]
  · intro v h hnl
    cases v with
    | list items => exact absurd rfl (hnl items)
    | none => simp [filter_publishes, h]
    | bool b => simp [filter_publishes, h]
    | int n => simp [filter_publishes, h]
    | str s => simp [filter_publishes, h]
    | dict kvs => simp [filter_publishes, h]
  · intro items h
    constructor
    · intro hbad
      obtain ⟨e, he⟩ := split_hook_items_error items hbad
      simp [filter_publishes, h, he]
    · intro hall
      simp [filter_publishes, h, split_hook_items_ok items hall]

/-- A hook whose output is a list of dictionaries, one with a truthy
publish value and one without any. -/
def hookDicts : List PyVal → Except Unit PyVal :=
  fun _ => Except.ok (PyVal.list
    [PyVal.dict [("sg_publish", PyVal.int 3)], PyVal.dict [("a", PyVal.int 0)]])

/-- C9 witness: the amended statement applied to a hook returning only
dictionaries. -/
theorem C9_filter_publishes_amended_witness :
    filter_publishes hookDicts [] = claimed_filter
      [PyVal.dict [("sg_publish", PyVal.int 3)],
        PyVal.dict [("a", PyVal.int 0)]] :=
  ((C9_filter_publishes_amended hookDicts []).2.2 _ rfl).2 (by
    intro it hit
    rcases List.mem_cons.1 hit with rfl | hit2
    · exact ⟨_, rfl⟩
    · rcases List.mem_cons.1 hit2 with rfl | hit3
      · exact ⟨_, rfl⟩
      · cases hit3)

/-- `resolve_filters` keeps the length of its input list. -/
theorem resolve_filters_length (ctx : AppContext) :
    ∀ fl : List SgFilter, (resolve_filters ctx fl).length = fl.length
  | [] => by simp [resolve_filters]
  | SgFilter.complex op subs :: rest => by
    simp [resolve_filters, resolve_filters_length ctx rest]
  | SgFilter.simple fields :: rest => by
    simp [resolve_filters, resolve_filters_length ctx rest]

/-- A field that is none of the six token strings passes through the
substitution unchanged. -/
theorem resolveField_id_of_not_token (ctx : AppContext) (field : PyVal)
    (h : isContextToken field = false) : resolveField ctx field = field := by
  cases field with
  | str s =>
    simp only [isContextToken, Bool.or_eq_false_iff, beq_eq_false_iff_ne,
      ne_eq] at h
    obtain ⟨⟨⟨⟨⟨h1, h2⟩, h3⟩, h4⟩, h5⟩, h6⟩ := h
    simp [resolveField, h1, h2, h3, h4, h5, h6]
  | none => rfl
  | bool b => rfl
  | int n => rfl
  | list xs => rfl
  | dict kvs => rfl

/-- Mapping a function over a list commutes with positional access. -/
theorem getD_map_comm (f : PyVal → PyVal) :
    ∀ (l : List PyVal) (i : Nat), i < l.length →
      (l.map f).getD i PyVal.none = f (l.getD i PyVal.none)
  | [], i, h => absurd h (by simp)
  | a :: l, 0, _ => rfl
  | a :: l, i + 1, h => getD_map_comm f l i (by simpa using h)

/-- C10: `resolve_filters` preserves the shape of its input — output of
the same length, dictionary filters rebuilt with the operator kept and
the nested filters resolved recursively, plain filters mapped fieldwise
so that every field that is not one of the six context tokens stays
unchanged in its original position. -/
theorem C10_resolve_filters_shape (ctx : AppContext) :
    (∀ fl : List SgFilter, (resolve_filters ctx fl).length = fl.length) ∧
    (∀ (op : PyVal) (subs rest : List SgFilter),
      resolve_filters ctx (SgFilter.complex op subs :: rest) =
        SgFilter.complex op (resolve_filters ctx subs) ::
          resolve_filters ctx rest) ∧
    (∀ (fields : List PyVal) (rest : List SgFilter),
      resolve_filters ctx (SgFilter.simple fields :: rest) =
        SgFilter.simple (fields.map (resolveField ctx)) ::
          resolve_filters ctx rest) ∧
    (∀ field : PyVal, isContextToken field = false →
      resolveField ctx field = field) ∧
    (∀ (fields : List PyVal) (i : Nat), i < fields.length →
      isContextToken (fields.getD i PyVal.none) = false →
      (fields.map (resolveField ctx)).getD i PyVal.none =
        fields.getD i PyVal.none) := by
  refine ⟨resolve_filters_length ctx, ?_, ?_,
    resolveField_id_of_not_token ctx, ?_⟩
  · intro op subs rest
    simp [resolve_filters]
  · intro fields rest
    simp [resolve_filters]
  · intro fields i hi htok
    rw [getD_map_comm (resolveField ctx) fields i hi,
      resolveField_id_of_not_token ctx _ htok]

/-- A context with no entities set. -/
def ctxNone : AppContext :=
  ⟨Option.none, Option.none, Option.none, Option.none, Option.none⟩

/-- C10 witness: the shape statement applied to a concrete context and
filter list. -/
theorem C10_resolve_filters_shape_witness :
    (resolve_filters ctxNone
      [SgFilter.simple [PyVal.str "sg_status_list", PyVal.int 5]]).length =
        1 ∧
    ([PyVal.str "sg_status_list", PyVal.int 5].map
        (resolveField ctxNone)).getD 0 PyVal.none =
      [PyVal.str "sg_status_list", PyVal.int 5].getD 0 PyVal.none :=
  ⟨(C10_resolve_filters_shape ctxNone).1 _,
    (C10_resolve_filters_shape ctxNone).2.2.2.2
      [PyVal.str "sg_status_list", PyVal.int 5] 0 (by decide) (by decide)⟩
